import Mathlib

set_option linter.unusedSectionVars false
set_option linter.unusedVariables false

/-
  Verification development for the pairs-trading Kalman filter core
  (src/python/strategy/kalman_filter.py).

  The numeric code is embedded shallowly over an arbitrary linear ordered
  field K (instantiated at ℝ in the theorems, with Real.log and Real.sqrt
  supplied for the calls to np.log and np.sqrt).  2x2 matrices are the
  concrete structure M2.  Python exceptions are modelled with Except, and
  the caught-and-handled branches of the source are modelled by the
  corresponding result values.
-/

/-- Concrete 2x2 matrix over the numeric carrier, row major:
    entries a b / c d. -/
structure M2 (K : Type) where
  a : K
  b : K
  c : K
  d : K

variable {K : Type} [LinearOrderedField K]

/-- Matrix plus q times the identity: models `P + np.eye(2) * q`. -/
def M2.addScaledId (P : M2 K) (q : K) : M2 K :=
  ⟨P.a + q, P.b, P.c, P.d + q⟩

/-- Trace of the matrix: models `np.trace`. -/
def M2.trace (P : M2 K) : K := P.a + P.d

/-- Quadratic form (x y) P (x y)^T. -/
def M2.quadF (P : M2 K) (x y : K) : K :=
  P.a * x ^ 2 + (P.b + P.c) * x * y + P.d * y ^ 2

/-- Bilinear form (x y) P (z w)^T. -/
def M2.bilinF (P : M2 K) (x y z w : K) : K :=
  P.a * x * z + P.b * x * w + P.c * y * z + P.d * y * w

/-- The matrix is symmetric. -/
def M2.symmP (P : M2 K) : Prop := P.b = P.c

/-- The matrix is positive semidefinite, phrased through its quadratic form. -/
def M2.posSemidef (P : M2 K) : Prop := ∀ x y : K, 0 ≤ P.quadF x y

/-- Observation row H = [1, lb] applied as H P H^T, written entrywise as the
    source computes `observation_matrix @ P @ observation_matrix.T`. -/
def obsQuad (P : M2 K) (lb : K) : K :=
  P.a + lb * P.b + lb * P.c + lb ^ 2 * P.d

/-- Single Kalman correction step of the batch filter that `initialize` runs
    through pykalman: given prior mean m and prior covariance P and the log
    prices (la, lb), produce the posterior mean and covariance.  (The inline
    formulas of update, kalman_filter.py lines 157-169, spell out the same
    correction, but that code path is dead - see kfUpdate.)  The gain divides
    by the innovation scalar s; in Lean division by zero yields 0, which
    agrees with pykalman's use of the pseudo-inverse on the 1x1 innovation
    matrix. -/
def kfCorrect (R : K) (m : K × K) (P : M2 K) (la lb : K) : (K × K) × M2 K :=
  let s := obsQuad P lb + R
  let k1 := (P.a + lb * P.b) / s
  let k2 := (P.c + lb * P.d) / s
  let innov := la - (m.1 + lb * m.2)
  ((m.1 + k1 * innov, m.2 + k2 * innov),
   ⟨(1 - k1) * P.a - k1 * lb * P.c,
    (1 - k1) * P.b - k1 * lb * P.d,
    -(k2 * P.a) + (1 - k2 * lb) * P.c,
    -(k2 * P.b) + (1 - k2 * lb) * P.d⟩)

/-- Batch filter recursion after the first observation: predict with the
    random-walk transition (add q to the diagonal) then correct. -/
def kfFilterAux (R q : K) (st : (K × K) × M2 K) :
    List (K × K) → List ((K × K) × M2 K)
  | [] => []
  | o :: os =>
      let st' := kfCorrect R st.1 (M2.addScaledId st.2 q) o.1 o.2
      st' :: kfFilterAux R q st' os

/-- Batch filter over the observation list (la, lb) per time step, as
    pykalman's `KalmanFilter.filter` runs it: the configured initial state
    (mean zero, covariance c times the identity) is the time-0 prior, so the
    first step corrects without adding process noise. -/
def kfFilter (R q c : K) : List (K × K) → List ((K × K) × M2 K)
  | [] => []
  | o :: os =>
      let st0 := kfCorrect R (0, 0) ⟨c, 0, 0, c⟩ o.1 o.2
      st0 :: kfFilterAux R q st0 os

/-- State of a PairsKalmanFilter instance.  The pd.Series / np.ndarray
    trajectories are chronological lists; fields that Python holds as None
    before initialization are empty lists here. -/
structure KFState (K : Type) where
  observation_covariance : K
  delta : K
  transition_covariance : K
  initial_state_covariance : K
  is_initialized : Bool
  state_means : List (K × K)
  state_covariances : List (M2 K)
  spreads : List K
  z_scores : List K
  hedge_ratios : List K

/-- PairsKalmanFilter.__init__: stores the parameters and sets
    transition_covariance = delta / (1 - delta). -/
def mkPairsKalmanFilter (obsCov dlt initCov : K) : KFState K :=
  ⟨obsCov, dlt, dlt / (1 - dlt), initCov, false, [], [], [], [], []⟩

/-- PairsKalmanFilter.initialize (lines 55-112).  lg and sq stand for np.log
    and np.sqrt.  The two ValueError raises are caught by the method's own
    except branch, which reports failure and marks the estimator
    uninitialized; all other work is the batch filter plus the derived
    spread / z-score / hedge-ratio series of lines 96-102 and 114-129
    (the z-score denominator at initialization has no +R term). -/
def kfInitialize (lg sq : K → K) (kf : KFState K) (price_a price_b : List K) :
    KFState K × Bool :=
  if price_a.length ≠ price_b.length then ({ kf with is_initialized := false }, false)
  else if price_a.length < 50 then ({ kf with is_initialized := false }, false)
  else
    let la := price_a.map lg
    let lb := price_b.map lg
    let obs := la.zip lb
    let traj := kfFilter kf.observation_covariance kf.transition_covariance
        kf.initial_state_covariance obs
    let means := traj.map (fun st => st.1)
    let covs := traj.map (fun st => st.2)
    let sps := (obs.zip traj).map (fun p => p.1.1 - (p.2.1.1 + p.1.2 * p.2.1.2))
    let zs := (obs.zip traj).map
        (fun p => (p.1.1 - (p.2.1.1 + p.1.2 * p.2.1.2)) / sq (obsQuad p.2.2 p.1.2))
    ({ kf with
        is_initialized := true,
        state_means := means,
        state_covariances := covs,
        spreads := sps,
        z_scores := zs,
        hedge_ratios := means.map (fun m => m.2) }, true)

/-- The error that PairsKalmanFilter.update raises out of the method. -/
inductive KFError
  | notInitialized

/-- PairsKalmanFilter.update (lines 131-193).  The RuntimeError for an
    uninitialized estimator is raised before the try block and escapes the
    method (Except.error).  Inside the try block the computation never
    completes: at line 168 the expression
    (observation_matrix @ predicted_state_mean)[0, 0] multiplies the (1,2)
    observation matrix with the one-dimensional state mean state_means[-1, :],
    which under numpy matmul rules yields a shape-(1,) array, and indexing it
    with two indices raises IndexError on every call (when the innovation
    scalar is zero, np.linalg.inv of the singular 1x1 matrix raises
    LinAlgError at lines 162-164 even earlier).  Either way nothing is
    appended - the vstack calls of lines 171-173 are dead code - and the
    blanket except branch of lines 190-193 returns the last entries of the
    stored series with the state untouched.  The lg and sq parameters
    (np.log, np.sqrt) feed only the computation that the exception abandons,
    so they do not reach the result. -/
def kfUpdate (lg sq : K → K) (kf : KFState K) (price_a price_b : K) :
    Except KFError (KFState K × (K × K × K)) :=
  if kf.is_initialized = false then .error .notInitialized
  else
    .ok (kf, (kf.hedge_ratios.getLastD 0, kf.z_scores.getLastD 0,
      kf.spreads.getLastD 0))

/-- The estimator state a caller is left with after calling update: the new
    state on success, the old state when the call raised. -/
def applyUpdate (lg sq : K → K) (kf : KFState K) (price_a price_b : K) : KFState K :=
  match kfUpdate lg sq kf price_a price_b with
  | .ok (kf', _) => kf'
  | .error _ => kf

theorem kfUpdate_stored (lg sq : K → K) (kf : KFState K) (price_a price_b : K)
    (h : kf.is_initialized = true) :
    kfUpdate lg sq kf price_a price_b =
      .ok (kf, (kf.hedge_ratios.getLastD 0, kf.z_scores.getLastD 0,
        kf.spreads.getLastD 0)) := by
  simp [kfUpdate, h]

theorem applyUpdate_eq_self (lg sq : K → K) (kf : KFState K) (price_a price_b : K) :
    applyUpdate lg sq kf price_a price_b = kf := by
  by_cases h : kf.is_initialized = false
  · simp [applyUpdate, kfUpdate, h]
  · simp [applyUpdate, kfUpdate, h]

/-- PairsKalmanFilter.reset (lines 220-229): back to the uninitialized
    state (Python sets the series to None; empty lists here). -/
def kfReset (kf : KFState K) : KFState K :=
  { kf with
      is_initialized := false,
      state_means := [],
      state_covariances := [],
      spreads := [],
      z_scores := [],
      hedge_ratios := [] }

/-- Payload of get_current_state when the estimator is initialized. -/
structure CurrentState (K : Type) where
  hr : K
  z_score : K
  spread : K
  intercept : K
  state_variance : K

/-- PairsKalmanFilter.get_current_state (lines 195-206): the empty dict of
    the uninitialized case is Option.none. -/
def getCurrentState (kf : KFState K) : Option (CurrentState K) :=
  if kf.is_initialized = false then none
  else
    some ⟨kf.hedge_ratios.getLastD 0, kf.z_scores.getLastD 0, kf.spreads.getLastD 0,
          (kf.state_means.getLastD (0, 0)).1,
          M2.trace (kf.state_covariances.getLastD ⟨0, 0, 0, 0⟩)⟩

/-- Payload of get_historical_data when the estimator is initialized. -/
structure HistData (K : Type) where
  hedge_ratios : List K
  z_scores : List K
  spreads : List K
  intercepts : List K

/-- PairsKalmanFilter.get_historical_data (lines 208-218). -/
def getHistoricalData (kf : KFState K) : Option (HistData K) :=
  if kf.is_initialized = false then none
  else some ⟨kf.hedge_ratios, kf.z_scores, kf.spreads, kf.state_means.map (fun m => m.1)⟩

/-- Sample variance with one delta degree of freedom, as pandas Series.var
    computes it; a series of length at most one has no variance (pandas
    yields NaN there, Option.none here). -/
def sampleVar (l : List K) : Option K :=
  if l.length ≤ 1 then none
  else
    let n : K := (l.length : K)
    let mu := l.sum / n
    some ((l.map (fun x => (x - mu) ^ 2)).sum / (n - 1))

/-- pandas Series.tail(20): the last (at most) 20 entries. -/
def tail20 (l : List K) : List K := l.drop (l.length - 20)

/-- PairsKalmanFilter.get_confidence (lines 231-258).  Indexing
    state_covariances[-1] on an empty trajectory would raise and be caught by
    the method's except branch, which returns 0.5.  When the recent
    hedge-ratio window has no variance (pandas NaN), CPython's
    max(0, 1 - nan/0.01) evaluates to 0, so the stability component is 0. -/
def getConfidence (kf : KFState K) : K :=
  if kf.is_initialized = false then 0
  else
    match kf.state_covariances.getLast? with
    | none => 1 / 2
    | some P =>
        let sv := M2.trace P
        let stateC := max 0 (1 - sv / (1 / 10))
        let stabC :=
          match sampleVar (tail20 kf.hedge_ratios) with
          | none => (0 : K)
          | some v => max 0 (1 - v / (1 / 100))
        min 1 (max 0 ((stateC + stabC) / 2))

/-- C9: calling update on an estimator that was never initialized, or that
    has been reset, raises NotInitializedError (modelled as Except.error
    KFError.notInitialized), returns no values, and leaves the caller's
    estimator state unchanged. -/
theorem c9_update_requires_init :
    (∀ (kf : KFState ℝ) (pa pb : ℝ), kf.is_initialized = false →
        kfUpdate Real.log Real.sqrt kf pa pb = .error .notInitialized ∧
        applyUpdate Real.log Real.sqrt kf pa pb = kf) ∧
    (∀ (kf : KFState ℝ) (pa pb : ℝ),
        kfUpdate Real.log Real.sqrt (kfReset kf) pa pb = .error .notInitialized) := by
  constructor
  · intro kf pa pb h
    constructor
    · simp [kfUpdate, h]
    · simp [applyUpdate, kfUpdate, h]
  · intro kf pa pb
    simp [kfUpdate, kfReset]

/-- Witness for C9: the freshly constructed estimator with the default
    parameters is uninitialized, and update on it errors out. -/
theorem c9_update_requires_init_witness :
    kfUpdate Real.log Real.sqrt (mkPairsKalmanFilter (1 / 1000) (1 / 10000) 1) 100 50 =
      .error .notInitialized :=
  ((c9_update_requires_init.1 (mkPairsKalmanFilter (1 / 1000) (1 / 10000) 1) 100 50 rfl).1)

/-- C10: on an estimator that was never initialized (or has been reset),
    the read-only accessors do not raise: get_current_state and
    get_historical_data return the empty mapping (none) and get_confidence
    returns 0. -/
theorem c10_accessors_uninitialized :
    (∀ kf : KFState ℝ, kf.is_initialized = false →
        getCurrentState kf = none ∧ getHistoricalData kf = none ∧ getConfidence kf = 0) ∧
    (∀ kf : KFState ℝ,
        getCurrentState (kfReset kf) = none ∧ getHistoricalData (kfReset kf) = none ∧
        getConfidence (kfReset kf) = 0) := by
  constructor
  · intro kf h
    refine ⟨?_, ?_, ?_⟩
    · simp [getCurrentState, h]
    · simp [getHistoricalData, h]
    · simp [getConfidence, h]
  · intro kf
    refine ⟨?_, ?_, ?_⟩
    · simp [getCurrentState, kfReset]
    · simp [getHistoricalData, kfReset]
    · simp [getConfidence, kfReset]

/-- Witness for C10: the accessors on the freshly constructed default
    estimator. -/
theorem c10_accessors_uninitialized_witness :
    getCurrentState (mkPairsKalmanFilter (1 / 1000 : ℝ) (1 / 10000) 1) = none ∧
    getHistoricalData (mkPairsKalmanFilter (1 / 1000 : ℝ) (1 / 10000) 1) = none ∧
    getConfidence (mkPairsKalmanFilter (1 / 1000 : ℝ) (1 / 10000) 1) = 0 :=
  c10_accessors_uninitialized.1 (mkPairsKalmanFilter (1 / 1000) (1 / 10000) 1) rfl

/-- The four trading signals emitted by the strategy. -/
inductive Signal
  | NO_SIGNAL
  | ENTER_LONG_SPREAD
  | ENTER_SHORT_SPREAD
  | EXIT_POSITION

/-- The half-life gate of _generate_signal line 393:
    `self.current_half_life is not None and self.current_half_life > max`.
    A half-life value lives in WithTop K (top is the float inf sentinel);
    the strategy attribute may also be Python None, hence the Option. -/
def hlExceeds (maxHL : K) : Option (WithTop K) → Bool
  | none => false
  | some v => if (maxHL : WithTop K) < v then true else false

/-- PairsTradingStrategy._generate_signal (lines 390-416), with the minimum
    confidence 0.7 fixed as in the source. -/
def generateSignal (entry exitT maxHL : K) (hl : Option (WithTop K)) (pos : Int)
    (z conf : K) : Signal :=
  if hlExceeds maxHL hl then .NO_SIGNAL
  else if conf < 7 / 10 then .NO_SIGNAL
  else if pos = 0 then
    if z ≤ -entry then .ENTER_LONG_SPREAD
    else if entry ≤ z then .ENTER_SHORT_SPREAD
    else .NO_SIGNAL
  else if pos = 1 then
    if -exitT ≤ z then .EXIT_POSITION else .NO_SIGNAL
  else if pos = -1 then
    if z ≤ exitT then .EXIT_POSITION else .NO_SIGNAL
  else .NO_SIGNAL

/-- PairsTradingStrategy._update_position_tracking (lines 418-425). -/
def trackPosition (sig : Signal) (pos : Int) : Int :=
  match sig with
  | .ENTER_LONG_SPREAD => 1
  | .ENTER_SHORT_SPREAD => -1
  | .EXIT_POSITION => 0
  | .NO_SIGNAL => pos

/-- One decision tick: generate the signal, then commit the position
    transition, as update does in lines 363-366. -/
def signalStep (entry exitT maxHL : K) (hl : Option (WithTop K)) (conf : K)
    (pos : Int) (z : K) : Signal × Int :=
  let sig := generateSignal entry exitT maxHL hl pos z conf
  (sig, trackPosition sig pos)

/-- Feeding a z-score sequence through the decision machine, collecting the
    emitted signals and the final position. -/
def signalRun (entry exitT maxHL : K) (hl : Option (WithTop K)) (conf : K)
    (pos : Int) : List K → List Signal × Int
  | [] => ([], pos)
  | z :: zs =>
      let st := signalStep entry exitT maxHL hl conf pos z
      let rest := signalRun entry exitT maxHL hl conf st.2 zs
      (st.1 :: rest.1, rest.2)

/-- C6: starting FLAT with entry threshold 2 and exit threshold 0.5, with the
    confidence and half-life gates passing on every tick, the z-score
    sequence [-2.5, -1.5, -2.5] emits exactly
    [ENTER_LONG_SPREAD, NO_SIGNAL, NO_SIGNAL] and moves the position to
    LONG_SPREAD after the first tick; from LONG_SPREAD any z below -0.5
    keeps the position with NO_SIGNAL and any z at or above -0.5 emits
    EXIT_POSITION and returns to FLAT. -/
theorem c6_decision_hysteresis (conf : ℝ) (hl : WithTop ℝ)
    (hconf : 7 / 10 ≤ conf) (hhl : hl ≤ ((45 : ℝ) : WithTop ℝ)) :
    signalRun 2 (1 / 2) 45 (some hl) conf 0 [-(5 / 2), -(3 / 2), -(5 / 2)] =
      ([.ENTER_LONG_SPREAD, .NO_SIGNAL, .NO_SIGNAL], 1) ∧
    (∀ z : ℝ, z < -(1 / 2) →
        signalStep 2 (1 / 2) 45 (some hl) conf 1 z = (.NO_SIGNAL, 1)) ∧
    (∀ z : ℝ, -(1 / 2) ≤ z →
        signalStep 2 (1 / 2) 45 (some hl) conf 1 z = (.EXIT_POSITION, 0)) := by
  have hgate : hlExceeds (45 : ℝ) (some hl) = false := by
    simp only [hlExceeds, if_neg (not_lt.mpr hhl)]
  have hcgate : ¬ (conf < 7 / 10) := not_lt.mpr hconf
  refine ⟨?_, ?_, ?_⟩
  · norm_num [signalRun, signalStep, generateSignal, trackPosition, hgate, hcgate]
  · intro z hz
    have h1 : ¬ (-(1 / 2 : ℝ) ≤ z) := not_le.mpr hz
    norm_num [signalStep, generateSignal, trackPosition, hgate, hcgate, h1]
  · intro z hz
    norm_num [signalStep, generateSignal, trackPosition, hgate, hcgate, hz]

/-- Witness for C6: the gates pass concretely with confidence 1 and
    half-life 0. -/
theorem c6_decision_hysteresis_witness :
    signalRun 2 (1 / 2) 45 (some ((0 : ℝ) : WithTop ℝ)) 1 0
        [-(5 / 2), -(3 / 2), -(5 / 2)] =
      ([.ENTER_LONG_SPREAD, .NO_SIGNAL, .NO_SIGNAL], 1) :=
  (c6_decision_hysteresis 1 ((0 : ℝ) : WithTop ℝ) (by norm_num)
    (by exact_mod_cast (by norm_num : (0 : ℝ) ≤ 45))).1

/-- Aligned (lagged spread, delta spread) pairs built in
    _calculate_half_life lines 307-317: pandas shift/diff/dropna and the
    index intersection leave, for spreads s0..s(n-1), the pairs
    (s(t-1), s(t) - s(t-1)) for t = 1..n-1. -/
def spreadPairs : List K → List (K × K)
  | [] => []
  | [_] => []
  | a :: b :: rest => (a, b - a) :: spreadPairs (b :: rest)

/-- Slope on the lagged regressor of the ordinary least squares fit
    delta = alpha + beta * lagged with intercept, as statsmodels OLS
    computes it on a full-rank design (lines 319-324):
    beta = (n*Sxy - Sx*Sy) / (n*Sxx - Sx^2). -/
def olsSlope (pairs : List (K × K)) : K :=
  let n : K := (pairs.length : K)
  let sx := (pairs.map (fun p => p.1)).sum
  let sy := (pairs.map (fun p => p.2)).sum
  let sxy := (pairs.map (fun p => p.1 * p.2)).sum
  let sxx := (pairs.map (fun p => p.1 ^ 2)).sum
  (n * sxy - sx * sy) / (n * sxx - sx ^ 2)

/-- PairsTradingStrategy._calculate_half_life (lines 297-334).  ln2 stands
    for np.log(2).  float inf is the top element of WithTop. -/
def calculateHalfLife (ln2 : K) (spreads : List K) : WithTop K :=
  if spreads.length < 50 then ⊤
  else
    let pairs := spreadPairs spreads
    if pairs.length < 30 then ⊤
    else
      let beta := olsSlope pairs
      if 0 ≤ beta then ⊤
      else some (-ln2 / beta)

theorem spreadPairs_length (l : List K) : (spreadPairs l).length = l.length - 1 := by
  induction l with
  | nil => simp [spreadPairs]
  | cons a t ih =>
      cases t with
      | nil => simp [spreadPairs]
      | cons b r =>
          simp only [spreadPairs, List.length_cons] at ih ⊢
          omega

/-- C3 (amended): the half-life computation first requires at least 50
    spreads (so at least 49 aligned pairs; the separate 30-pair check can
    then never fire); with fewer spreads the result is infinite even when
    the fitted slope is negative.  Given at least 50 spreads, a fitted slope
    beta >= 0 yields infinity and beta < 0 yields the finite value
    -ln(2)/beta. -/
theorem c3_half_life_amended (spreads : List ℝ) :
    calculateHalfLife (Real.log 2) spreads =
      if 50 ≤ spreads.length then
        (if 0 ≤ olsSlope (spreadPairs spreads) then (⊤ : WithTop ℝ)
         else ((-Real.log 2 / olsSlope (spreadPairs spreads) : ℝ) : WithTop ℝ))
      else (⊤ : WithTop ℝ) := by
  by_cases h : spreads.length < 50
  · simp only [calculateHalfLife, if_pos h, if_neg (by omega : ¬ 50 ≤ spreads.length)]
  · have h50 : 50 ≤ spreads.length := by omega
    have hp : ¬ (spreadPairs spreads).length < 30 := by
      rw [spreadPairs_length]; omega
    simp only [calculateHalfLife, if_neg h, if_pos h50, if_neg hp]
    rfl

/-- A spread history of 31 points alternating between 0 and 1: it yields 30
    aligned (lagged, delta) pairs and a strongly negative fitted slope, yet
    fewer than the 50 spreads the code requires. -/
def c3CexSpreads : List ℝ :=
  [0, 1, 0, 1, 0, 1, 0, 1, 0, 1, 0, 1, 0, 1, 0, 1, 0, 1, 0, 1, 0, 1, 0, 1, 0,
   1, 0, 1, 0, 1, 0]

/-- C3 counterexample: this 31-point spread history yields 30 aligned pairs
    and fitted slope -2 < 0, but the computed half-life is still infinite,
    refuting the final sentence of the claim (30 aligned pairs are not
    enough for a finite result: the code also requires 50 spreads). -/
theorem c3_half_life_counterexample :
    calculateHalfLife (Real.log 2) c3CexSpreads = ⊤ ∧
    (spreadPairs c3CexSpreads).length = 30 ∧
    olsSlope (spreadPairs c3CexSpreads) < 0 := by
  refine ⟨?_, ?_, ?_⟩
  · simp [calculateHalfLife, c3CexSpreads]
  · simp [c3CexSpreads, spreadPairs]
  · norm_num [c3CexSpreads, spreadPairs, olsSlope]

theorem tail20_length_of_le (l : List K) (h : 20 ≤ l.length) :
    (tail20 l).length = 20 := by
  simp only [tail20, List.length_drop]
  omega

theorem sampleVar_of_two_le (l : List K) (h : ¬ l.length ≤ 1) :
    ∃ v, sampleVar l = some v := by
  rw [sampleVar, if_neg h]
  exact ⟨_, rfl⟩

theorem getConfidence_eq (kf : KFState K) (P : M2 K) (v : K)
    (hinit : kf.is_initialized = true)
    (hlast : kf.state_covariances.getLast? = some P)
    (hv : sampleVar (tail20 kf.hedge_ratios) = some v) :
    getConfidence kf =
      min 1 (max 0 ((max 0 (1 - M2.trace P / (1 / 10)) +
        max 0 (1 - v / (1 / 100))) / 2)) := by
  unfold getConfidence
  rw [hinit, hlast, hv]
  rfl

theorem sampleVar_nonneg (l : List K) (v : K) (h : sampleVar l = some v) : 0 ≤ v := by
  by_cases hl : l.length ≤ 1
  · simp [sampleVar, if_pos hl] at h
  · rw [sampleVar, if_neg hl] at h
    have hv := Option.some.inj h
    have hnum : 0 ≤ (l.map (fun x => (x - l.sum / (l.length : K)) ^ 2)).sum := by
      apply List.sum_nonneg
      intro x hx
      obtain ⟨y, _, rfl⟩ := List.mem_map.mp hx
      exact sq_nonneg _
    have hden : 0 ≤ (l.length : K) - 1 := by
      have h2 : (2 : ℕ) ≤ l.length := by omega
      have : (2 : K) ≤ (l.length : K) := by exact_mod_cast h2
      linarith
    rw [← hv]
    exact div_nonneg hnum hden

/-- C8: on an initialized estimator whose current state covariance has
    nonnegative trace (as every reachable, positive-semidefinite one does)
    and whose hedge-ratio series has at least 20 entries, the confidence is
    exactly the average of the two components
    state_confidence = max(0, 1 - trace/0.1) and
    stability_confidence = max(0, 1 - var(last 20 hedge ratios)/0.01), each
    of which lies in [0,1], and the confidence itself lies in [0,1]. -/
theorem c8_confidence (kf : KFState ℝ) (P : M2 ℝ)
    (hinit : kf.is_initialized = true)
    (hlast : kf.state_covariances.getLast? = some P)
    (htr : 0 ≤ M2.trace P)
    (hlen : 20 ≤ kf.hedge_ratios.length) :
    getConfidence kf =
      (max 0 (1 - M2.trace P / (1 / 10)) +
       max 0 (1 - (sampleVar (tail20 kf.hedge_ratios)).getD 0 / (1 / 100))) / 2 ∧
    max 0 (1 - M2.trace P / (1 / 10)) ∈ Set.Icc (0 : ℝ) 1 ∧
    max 0 (1 - (sampleVar (tail20 kf.hedge_ratios)).getD 0 / (1 / 100)) ∈
      Set.Icc (0 : ℝ) 1 ∧
    getConfidence kf ∈ Set.Icc (0 : ℝ) 1 := by
  have hvlen : ¬ (tail20 kf.hedge_ratios).length ≤ 1 := by
    rw [tail20_length_of_le _ hlen]; omega
  obtain ⟨v, hv⟩ := sampleVar_of_two_le (tail20 kf.hedge_ratios) hvlen
  have hv0 : 0 ≤ v := sampleVar_nonneg _ _ hv
  have hconf := getConfidence_eq kf P v hinit hlast hv
  have hsc0 : (0 : ℝ) ≤ max 0 (1 - M2.trace P / (1 / 10)) := le_max_left _ _
  have hsc1 : max 0 (1 - M2.trace P / (1 / 10)) ≤ 1 := by
    apply max_le (by norm_num)
    have : 0 ≤ M2.trace P / (1 / 10) := by positivity
    linarith
  have hst0 : (0 : ℝ) ≤ max 0 (1 - v / (1 / 100)) := le_max_left _ _
  have hst1 : max 0 (1 - v / (1 / 100)) ≤ 1 := by
    apply max_le (by norm_num)
    have : 0 ≤ v / (1 / 100) := by positivity
    linarith
  have havg0 : (0 : ℝ) ≤ (max 0 (1 - M2.trace P / (1 / 10)) +
      max 0 (1 - v / (1 / 100))) / 2 := by linarith
  have havg1 : (max 0 (1 - M2.trace P / (1 / 10)) +
      max 0 (1 - v / (1 / 100))) / 2 ≤ 1 := by linarith
  have hgd : (sampleVar (tail20 kf.hedge_ratios)).getD 0 = v := by rw [hv]; rfl
  rw [hconf, max_eq_right havg0, min_eq_right havg1, hgd]
  refine ⟨rfl, ⟨hsc0, hsc1⟩, ⟨hst0, hst1⟩, ⟨havg0, havg1⟩⟩

/-- Concrete initialized estimator state used to instantiate theorems: the
    default parameters, identity-like covariance and 20 stored hedge
    ratios. -/
def kfW : KFState ℝ :=
  { observation_covariance := 1
    delta := 0
    transition_covariance := 0
    initial_state_covariance := 1
    is_initialized := true
    state_means := [(0, 0)]
    state_covariances := [⟨1, 0, 0, 1⟩]
    spreads := [0]
    z_scores := [0]
    hedge_ratios := List.replicate 20 1 }

/-- Witness for C8 at the concrete state kfW. -/
theorem c8_confidence_witness :
    getConfidence kfW =
      (max 0 (1 - M2.trace ⟨1, 0, 0, 1⟩ / (1 / 10)) +
       max 0 (1 - (sampleVar (tail20 kfW.hedge_ratios)).getD 0 / (1 / 100))) / 2 ∧
    getConfidence kfW ∈ Set.Icc (0 : ℝ) 1 := by
  have h := c8_confidence kfW ⟨1, 0, 0, 1⟩ rfl (by simp [kfW])
    (by norm_num [M2.trace]) (by simp [kfW])
  exact ⟨h.1, h.2.2.2⟩

theorem kfFilterAux_length (R q : K) (st : (K × K) × M2 K) (os : List (K × K)) :
    (kfFilterAux R q st os).length = os.length := by
  induction os generalizing st with
  | nil => rfl
  | cons o os ih => simp [kfFilterAux, ih]

theorem kfFilter_length (R q c : K) (os : List (K × K)) :
    (kfFilter R q c os).length = os.length := by
  cases os with
  | nil => rfl
  | cons o os => simp [kfFilter, kfFilterAux_length]

/-- C1: a valid initialization stores spread, z-score, hedge-ratio and
    state-mean series of the input length, but an online update never
    extends any of them: every initialized update call dies on the
    unconditional indexing error inside the try block before the vstack
    appends, so the estimator state after an update is exactly the state
    before it.  After N-point initialization and K updates the
    (hedge_ratio, spread, z_score) history therefore has length N, not
    N + K as the claim and the spec state. -/
theorem c1_history_growth_bug :
    (∀ (kf : KFState ℝ) (pa pb : List ℝ), pa.length = pb.length → 50 ≤ pa.length →
        (kfInitialize Real.log Real.sqrt kf pa pb).1.spreads.length = pa.length ∧
        (kfInitialize Real.log Real.sqrt kf pa pb).1.z_scores.length = pa.length ∧
        (kfInitialize Real.log Real.sqrt kf pa pb).1.hedge_ratios.length = pa.length ∧
        (kfInitialize Real.log Real.sqrt kf pa pb).1.state_means.length = pa.length) ∧
    (∀ (kf : KFState ℝ) (pa pb : ℝ),
        applyUpdate Real.log Real.sqrt kf pa pb = kf) := by
  constructor
  · intro kf pa pb hlen h50
    have hne : ¬ pa.length ≠ pb.length := by omega
    have hlt : ¬ pa.length < 50 := by omega
    rw [kfInitialize, if_neg hne, if_neg hlt]
    simp [kfFilter_length, hlen]
  · intro kf pa pb
    exact applyUpdate_eq_self Real.log Real.sqrt kf pa pb

/-- Witness for C1: a concrete 50-point initialization stores 50-long
    series, and a concrete update on the initialized state kfW leaves the
    whole estimator state - its history series included - untouched. -/
theorem c1_history_growth_bug_witness :
    (kfInitialize Real.log Real.sqrt (mkPairsKalmanFilter 1 0 1)
        (List.replicate 50 1) (List.replicate 50 1)).1.spreads.length = 50 ∧
    applyUpdate Real.log Real.sqrt kfW 1 1 = kfW := by
  constructor
  · have h := (c1_history_growth_bug.1 (mkPairsKalmanFilter 1 0 1)
      (List.replicate 50 1) (List.replicate 50 1) (by simp) (by simp)).1
    simpa using h
  · exact c1_history_growth_bug.2 kfW 1 1

/-- The (hedge_ratio, z_score, spread) triple an update call returns; the
    raising (uninitialized) case returns no values, represented by the zero
    triple. -/
def updateTriple (r : Except KFError (KFState K × (K × K × K))) : K × K × K :=
  match r with
  | .ok (_, t) => t
  | .error _ => (0, 0, 0)

/-- C2 counterexample: at the concrete initialized state kfW with prices
    (e, 1), the spread returned by update is the stored initialization-time
    value 0, while the innovation against the predicted (prior) state mean
    is 1 - the in-try computation dies on its unconditional internal
    exception and the method never returns the claimed innovation. -/
theorem c2_spread_counterexample :
    (updateTriple (kfUpdate Real.log Real.sqrt kfW (Real.exp 1) 1)).2.2 ≠
      Real.log (Real.exp 1) -
        ((kfW.state_means.getLastD (0, 0)).1 +
          Real.log 1 * (kfW.state_means.getLastD (0, 0)).2) := by
  have h1 : Real.log (Real.exp 1) = 1 := Real.log_exp 1
  norm_num [updateTriple, kfUpdate, kfW, h1, Real.log_one]

/-- C2 (amended): for an initialized estimator, update never returns a
    freshly computed spread or z-score at all: the computation inside the
    try block dies on its unconditional indexing error, and the except
    branch returns the stored initialization-time (hedge_ratio, z_score,
    spread) triple with the state unchanged.  (Even the abandoned in-try
    computation of lines 176-181 would have measured the spread against the
    corrected posterior mean, not the predicted prior mean of the claim.) -/
theorem c2_update_returns_stored (kf : KFState ℝ) (pa pb : ℝ)
    (hinit : kf.is_initialized = true) :
    kfUpdate Real.log Real.sqrt kf pa pb =
      .ok (kf, (kf.hedge_ratios.getLastD 0, kf.z_scores.getLastD 0,
        kf.spreads.getLastD 0)) :=
  kfUpdate_stored Real.log Real.sqrt kf pa pb hinit

/-- Witness for C2 (amended) at the concrete initialized state kfW. -/
theorem c2_update_returns_stored_witness :
    kfUpdate Real.log Real.sqrt kfW 1 1 =
      .ok (kfW, (kfW.hedge_ratios.getLastD 0, kfW.z_scores.getLastD 0,
        kfW.spreads.getLastD 0)) :=
  c2_update_returns_stored kfW 1 1 rfl

/-- State of a PairsTradingStrategy instance (lines 267-286).  The
    _update_count attribute, absent until the first update, is a counter
    starting at 0; current_half_life is Python None until initialization. -/
structure StrategyState (K : Type) where
  entry_threshold : K
  exit_threshold : K
  max_half_life_days : K
  kalman : KFState K
  current_position : Int
  current_half_life : Option (WithTop K)
  update_count : Nat

/-- The result dict of PairsTradingStrategy.update (lines 368-388). -/
structure StratResult (K : Type) where
  signal : Signal
  hr : K
  z_score : K
  spread : K
  confidence : K
  current_position : Int
  half_life : Option (WithTop K)

/-- PairsTradingStrategy.__init__ (lines 267-286): thresholds plus a
    default-parameter PairsKalmanFilter, flat position, no half-life yet. -/
def mkPairsTradingStrategy (entry exitT maxHL : K) : StrategyState K :=
  ⟨entry, exitT, maxHL, mkPairsKalmanFilter (1 / 1000) (1 / 10000) 1, 0, none, 0⟩

/-- PairsTradingStrategy.initialize (lines 288-295). -/
def strategyInitialize (lg sq : K → K) (ln2 : K) (s : StrategyState K)
    (price_a price_b : List K) : StrategyState K × Bool :=
  let r := kfInitialize lg sq s.kalman price_a price_b
  if r.2 then
    ({ s with
        kalman := r.1,
        current_half_life := some (calculateHalfLife ln2 r.1.spreads) }, true)
  else ({ s with kalman := r.1 }, false)

/-- PairsTradingStrategy.update (lines 336-388).  The only exception that can
    reach the method's own try/except in exact arithmetic is the
    NotInitializedError raised by the estimator (any numerical error inside
    the estimator update is already caught there); the except branch of
    lines 378-388 returns NO_SIGNAL with hedge_ratio, z_score, spread and
    confidence all 0.0 and the state untouched.  On success the half-life is
    recomputed every 20th update from the stored spread series, then the
    signal is generated and the position transition committed. -/
def strategyUpdate (lg sq : K → K) (ln2 : K) (s : StrategyState K)
    (price_a price_b : K) : StrategyState K × StratResult K :=
  match kfUpdate lg sq s.kalman price_a price_b with
  | .error _ =>
      (s, ⟨.NO_SIGNAL, 0, 0, 0, 0, s.current_position, s.current_half_life⟩)
  | .ok (kf', tr) =>
      let conf := getConfidence kf'
      let cnt := s.update_count + 1
      let hl' := if cnt % 20 = 0 then some (calculateHalfLife ln2 kf'.spreads)
                 else s.current_half_life
      let sig := generateSignal s.entry_threshold s.exit_threshold
          s.max_half_life_days hl' s.current_position tr.2.1 conf
      let pos' := trackPosition sig s.current_position
      ({ s with kalman := kf', update_count := cnt, current_half_life := hl',
                current_position := pos' },
       ⟨sig, tr.1, tr.2.1, tr.2.2, conf, pos', hl'⟩)

/-- Concrete strategy state holding the initialized estimator kfW. -/
def stratW : StrategyState ℝ :=
  { entry_threshold := 2
    exit_threshold := 1
    max_half_life_days := 45
    kalman := kfW
    current_position := 0
    current_half_life := none
    update_count := 0 }

/-- C7: every initialized update call raises a numerical exception inside
    the try block (the unconditional indexing error of line 168, or the
    singular-matrix error of lines 162-164 when the innovation scalar is
    zero); the estimator does not propagate it: from the caller's side the
    call succeeds, the estimator state is unchanged, and the returned triple
    is the last entry of the stored (hedge_ratio, z_score, spread) series -
    the last values ever validly produced, since the series are written
    exactly once, at initialization, and never afterwards.  The strategy's
    update then proceeds on these fallback values, so the result delivered
    to the caller for the tick carries the same last known valid triple. -/
theorem c7_fallback_policy :
    (∀ (kf : KFState ℝ) (pa pb : ℝ), kf.is_initialized = true →
        kfUpdate Real.log Real.sqrt kf pa pb ≠ .error .notInitialized ∧
        applyUpdate Real.log Real.sqrt kf pa pb = kf ∧
        updateTriple (kfUpdate Real.log Real.sqrt kf pa pb) =
          (kf.hedge_ratios.getLastD 0, kf.z_scores.getLastD 0,
           kf.spreads.getLastD 0)) ∧
    (∀ (s : StrategyState ℝ) (pa pb : ℝ), s.kalman.is_initialized = true →
        (strategyUpdate Real.log Real.sqrt (Real.log 2) s pa pb).2.hr =
          s.kalman.hedge_ratios.getLastD 0 ∧
        (strategyUpdate Real.log Real.sqrt (Real.log 2) s pa pb).2.z_score =
          s.kalman.z_scores.getLastD 0 ∧
        (strategyUpdate Real.log Real.sqrt (Real.log 2) s pa pb).2.spread =
          s.kalman.spreads.getLastD 0) := by
  constructor
  · intro kf pa pb hinit
    rw [kfUpdate_stored Real.log Real.sqrt kf pa pb hinit]
    exact ⟨by simp, applyUpdate_eq_self Real.log Real.sqrt kf pa pb, rfl⟩
  · intro s pa pb hinit
    unfold strategyUpdate
    rw [kfUpdate_stored Real.log Real.sqrt s.kalman pa pb hinit]
    exact ⟨rfl, rfl, rfl⟩

/-- Witness for C7 at the concrete estimator state kfW and the concrete
    strategy state stratW. -/
theorem c7_fallback_policy_witness :
    (kfUpdate Real.log Real.sqrt kfW 1 1 ≠ .error .notInitialized ∧
     applyUpdate Real.log Real.sqrt kfW 1 1 = kfW ∧
     updateTriple (kfUpdate Real.log Real.sqrt kfW 1 1) =
       (kfW.hedge_ratios.getLastD 0, kfW.z_scores.getLastD 0,
        kfW.spreads.getLastD 0)) ∧
    ((strategyUpdate Real.log Real.sqrt (Real.log 2) stratW 1 1).2.hr =
       stratW.kalman.hedge_ratios.getLastD 0 ∧
     (strategyUpdate Real.log Real.sqrt (Real.log 2) stratW 1 1).2.z_score =
       stratW.kalman.z_scores.getLastD 0 ∧
     (strategyUpdate Real.log Real.sqrt (Real.log 2) stratW 1 1).2.spread =
       stratW.kalman.spreads.getLastD 0) :=
  ⟨c7_fallback_policy.1 kfW 1 1 rfl, c7_fallback_policy.2 stratW 1 1 rfl⟩

/-
  Finiteness-tracking model for C4.  IEEE floats are abstracted to Option K:
  some x is a finite value, none stands for every non-finite value (NaN or
  an infinity).  np.log maps a non-positive input to a non-finite value; a
  non-finite operand makes every arithmetic result non-finite (NaN
  propagation); pykalman's pseudo-inverse of the 1x1 innovation matrix maps
  a finite scalar s to 0 when s = 0 and to 1/s otherwise, and raises
  nothing.  The source performs no finiteness check anywhere in initialize.
-/

/-- Float addition with non-finite propagation. -/
def nadd : Option K → Option K → Option K
  | some a, some b => some (a + b)
  | _, _ => none

/-- Float subtraction with non-finite propagation. -/
def nsub : Option K → Option K → Option K
  | some a, some b => some (a - b)
  | _, _ => none

/-- Float multiplication with non-finite propagation. -/
def nmul : Option K → Option K → Option K
  | some a, some b => some (a * b)
  | _, _ => none

/-- x times the pseudo-inverse of s (pykalman's gain division). -/
def npinvMul : Option K → Option K → Option K
  | some x, some s => some (if s = 0 then 0 else x / s)
  | _, _ => none

theorem nadd_none_right (x : Option K) : nadd x none = none := by
  cases x <;> rfl

theorem nmul_none_right (x : Option K) : nmul x none = none := by
  cases x <;> rfl

theorem nsub_none_left (x : Option K) : nsub none x = none := rfl

/-- H P H^T over the float model. -/
def obsQuadNF (P : M2 (Option K)) (lb : Option K) : Option K :=
  nadd (nadd (nadd P.a (nmul lb P.b)) (nmul lb P.c)) (nmul (nmul lb lb) P.d)

/-- P plus q times the identity over the float model. -/
def addScaledIdNF (P : M2 (Option K)) (q : Option K) : M2 (Option K) :=
  ⟨nadd P.a q, P.b, P.c, nadd P.d q⟩

/-- The Kalman correction step of the batch filter over the float model:
    the same formulas as kfCorrect, with pseudo-inverse gain division. -/
def kfCorrectNF (R : Option K) (m : Option K × Option K) (P : M2 (Option K))
    (la lb : Option K) : (Option K × Option K) × M2 (Option K) :=
  let s := nadd (obsQuadNF P lb) R
  let k1 := npinvMul (nadd P.a (nmul lb P.b)) s
  let k2 := npinvMul (nadd P.c (nmul lb P.d)) s
  let innov := nsub la (nadd m.1 (nmul lb m.2))
  ((nadd m.1 (nmul k1 innov), nadd m.2 (nmul k2 innov)),
   ⟨nsub (nmul (nsub (some 1) k1) P.a) (nmul (nmul k1 lb) P.c),
    nsub (nmul (nsub (some 1) k1) P.b) (nmul (nmul k1 lb) P.d),
    nsub (nmul (nsub (some 1) (nmul k2 lb)) P.c) (nmul k2 P.a),
    nsub (nmul (nsub (some 1) (nmul k2 lb)) P.d) (nmul k2 P.b)⟩)

/-- Batch filter recursion over the float model, after the first step. -/
def kfFilterAuxNF (R q : Option K) (st : (Option K × Option K) × M2 (Option K)) :
    List (Option K × Option K) → List ((Option K × Option K) × M2 (Option K))
  | [] => []
  | o :: os =>
      let st' := kfCorrectNF R st.1 (addScaledIdNF st.2 q) o.1 o.2
      st' :: kfFilterAuxNF R q st' os

/-- Batch filter over the float model. -/
def kfFilterNF (R q c : Option K) :
    List (Option K × Option K) → List ((Option K × Option K) × M2 (Option K))
  | [] => []
  | o :: os =>
      let st0 := kfCorrectNF R (some 0, some 0) ⟨c, some 0, some 0, c⟩ o.1 o.2
      st0 :: kfFilterAuxNF R q st0 os

/-- PairsKalmanFilter.initialize over the float model, keeping the success
    flag and the state-mean trajectory: the length checks raise and are
    caught (failure), and otherwise the batch filter runs on the logged
    observations with no finiteness check before success is reported.
    lg is np.log as a partial (finite-or-not) map. -/
def kfInitializeNF (lg : K → Option K) (R q c : K) (price_a price_b : List K) :
    Bool × List (Option K × Option K) :=
  if price_a.length ≠ price_b.length then (false, [])
  else if price_a.length < 50 then (false, [])
  else
    let obs := (price_a.map lg).zip (price_b.map lg)
    (true, (kfFilterNF (some R) (some q) (some c) obs).map (fun st => st.1))

/-- C4 counterexample: fifty aligned points whose first price_a entry is -1
    pass both length checks, so initialize reports success, yet np.log(-1)
    is non-finite and the very first state mean of the resulting trajectory
    is non-finite (none).  The code never checks finiteness before marking
    the initialization successful. -/
theorem c4_nonfinite_counterexample :
    (kfInitializeNF (fun x : ℝ => if 0 < x then some (Real.log x) else none)
        1 0 1 ((-1) :: List.replicate 49 1) (List.replicate 50 1)).1 = true ∧
    ((kfInitializeNF (fun x : ℝ => if 0 < x then some (Real.log x) else none)
        1 0 1 ((-1) :: List.replicate 49 1) (List.replicate 50 1)).2.headD
      (some 0, some 0)).1 = none := by
  have hlen : ((-1 : ℝ) :: List.replicate 49 1).length = 50 := by
    simp
  have hne : ¬ ((-1 : ℝ) :: List.replicate 49 1).length ≠
      (List.replicate 50 (1 : ℝ)).length := by
    simp
  have hlt : ¬ ((-1 : ℝ) :: List.replicate 49 1).length < 50 := by
    simp
  constructor
  · rw [kfInitializeNF, if_neg hne, if_neg hlt]
  · rw [kfInitializeNF, if_neg hne, if_neg hlt]
    have hrep : List.replicate 50 (1 : ℝ) = 1 :: List.replicate 49 1 := rfl
    rw [hrep]
    simp only [List.map_cons, List.zip_cons_cons, kfFilterNF, List.map, List.headD_cons]
    have hlga : (if (0 : ℝ) < -1 then some (Real.log (-1)) else none) = none := by
      norm_num
    have hlgb : (if (0 : ℝ) < 1 then some (Real.log 1) else none) =
        some (Real.log 1) := by
      norm_num
    rw [hlga, hlgb]
    simp only [kfCorrectNF, obsQuadNF, nadd, nmul, nsub, npinvMul,
      nsub_none_left, nmul_none_right, nadd_none_right]

/-- C4 (amended): initialize reports failure and leaves the estimator
    uninitialized whenever the two price series have mismatched lengths or
    length below 50; however the code performs no finiteness check, so a
    successful initialization can still carry non-finite values in the
    state trajectory (see the counterexample). -/
theorem c4_insufficient_data (kf : KFState ℝ) (pa pb : List ℝ)
    (h : pa.length ≠ pb.length ∨ pa.length < 50) :
    (kfInitialize Real.log Real.sqrt kf pa pb).2 = false ∧
    (kfInitialize Real.log Real.sqrt kf pa pb).1.is_initialized = false := by
  rcases h with h | h
  · rw [kfInitialize, if_pos h]
    exact ⟨rfl, rfl⟩
  · by_cases h2 : pa.length ≠ pb.length
    · rw [kfInitialize, if_pos h2]
      exact ⟨rfl, rfl⟩
    · rw [kfInitialize, if_neg h2, if_pos h]
      exact ⟨rfl, rfl⟩

/-- Witness for C4 (amended): ten points are too few. -/
theorem c4_insufficient_data_witness :
    (kfInitialize Real.log Real.sqrt (mkPairsKalmanFilter 1 0 1)
        (List.replicate 10 1) (List.replicate 10 1)).2 = false ∧
    (kfInitialize Real.log Real.sqrt (mkPairsKalmanFilter 1 0 1)
        (List.replicate 10 1) (List.replicate 10 1)).1.is_initialized = false :=
  c4_insufficient_data (mkPairsKalmanFilter 1 0 1) (List.replicate 10 1)
    (List.replicate 10 1) (Or.inr (by simp))

theorem obsQuad_eq_quadF (P : M2 K) (lb : K) : obsQuad P lb = P.quadF 1 lb := by
  simp only [obsQuad, M2.quadF]
  ring

/-- Symmetric positive semidefinite matrix with both symmetry and the
    quadratic-form bound. -/
def covOK (P : M2 K) : Prop := P.symmP ∧ P.posSemidef

theorem covOK_zero : covOK (⟨0, 0, 0, 0⟩ : M2 K) := by
  constructor
  · rfl
  · intro x y
    simp [M2.quadF]

theorem covOK_scaledId (c : K) (hc : 0 ≤ c) : covOK (⟨c, 0, 0, c⟩ : M2 K) := by
  constructor
  · rfl
  · intro x y
    simp only [M2.quadF]
    nlinarith [sq_nonneg x, sq_nonneg y]

/-- Cauchy-Schwarz for the quadratic form of a symmetric PSD 2x2 matrix. -/
theorem quad_cauchy (P : M2 K) (hsym : P.symmP) (hpsd : P.posSemidef)
    (x y z w : K) :
    (P.bilinF x y z w) ^ 2 ≤ P.quadF x y * P.quadF z w := by
  obtain ⟨a, b, c, d⟩ := P
  simp only [M2.symmP] at hsym
  subst hsym
  have h : ∀ t : K,
      0 ≤ (M2.quadF (⟨a, b, b, d⟩ : M2 K) x y) * (t * t) +
        (2 * M2.bilinF (⟨a, b, b, d⟩ : M2 K) x y z w) * t +
          M2.quadF (⟨a, b, b, d⟩ : M2 K) z w := by
    intro t
    have h2 := hpsd (t * x + z) (t * y + w)
    have h3 : M2.quadF (⟨a, b, b, d⟩ : M2 K) (t * x + z) (t * y + w) =
        (M2.quadF (⟨a, b, b, d⟩ : M2 K) x y) * (t * t) +
          (2 * M2.bilinF (⟨a, b, b, d⟩ : M2 K) x y z w) * t +
            M2.quadF (⟨a, b, b, d⟩ : M2 K) z w := by
      simp only [M2.quadF, M2.bilinF]
      ring
    rw [← h3]
    exact h2
  have key := discrim_le_zero h
  rw [discrim] at key
  nlinarith [key]

theorem kfCorrect_cov_symm (R : K) (m : K × K) (P : M2 K) (la lb : K)
    (hsym : P.symmP) : ((kfCorrect R m P la lb).2).symmP := by
  obtain ⟨a, b, c, d⟩ := P
  simp only [M2.symmP] at hsym
  subst hsym
  simp only [kfCorrect, M2.symmP]
  ring

theorem kfCorrect_cov_quad (R : K) (m : K × K) (P : M2 K) (la lb x y : K)
    (hsym : P.symmP) (hs : obsQuad P lb + R ≠ 0) :
    ((kfCorrect R m P la lb).2).quadF x y =
      P.quadF x y - (P.bilinF x y 1 lb) ^ 2 / (obsQuad P lb + R) := by
  obtain ⟨a, b, c, d⟩ := P
  simp only [M2.symmP] at hsym
  subst hsym
  simp only [kfCorrect, M2.quadF, M2.bilinF, obsQuad] at hs ⊢
  field_simp
  ring

theorem kfCorrect_cov_psd (R : K) (hR : 0 < R) (m : K × K) (P : M2 K) (la lb : K)
    (hsym : P.symmP) (hpsd : P.posSemidef) :
    ((kfCorrect R m P la lb).2).posSemidef := by
  intro x y
  have hobs : 0 ≤ obsQuad P lb := by
    rw [obsQuad_eq_quadF]
    exact hpsd 1 lb
  have hs0 : 0 < obsQuad P lb + R := by linarith
  rw [kfCorrect_cov_quad R m P la lb x y hsym (ne_of_gt hs0)]
  have hcs := quad_cauchy P hsym hpsd x y 1 lb
  have hqxy : 0 ≤ P.quadF x y := hpsd x y
  have h1 : (P.bilinF x y 1 lb) ^ 2 ≤ P.quadF x y * (obsQuad P lb + R) := by
    calc (P.bilinF x y 1 lb) ^ 2 ≤ P.quadF x y * P.quadF 1 lb := hcs
    _ = P.quadF x y * obsQuad P lb := by rw [obsQuad_eq_quadF]
    _ ≤ P.quadF x y * (obsQuad P lb + R) := by nlinarith
  have h2 : (P.bilinF x y 1 lb) ^ 2 / (obsQuad P lb + R) ≤ P.quadF x y := by
    rw [div_le_iff₀ hs0]
    exact h1
  linarith

theorem covOK_addScaledId (P : M2 K) (q : K) (h : covOK P) (hq : 0 ≤ q) :
    covOK (P.addScaledId q) := by
  refine ⟨h.1, ?_⟩
  intro x y
  have := h.2 x y
  simp only [M2.addScaledId, M2.quadF] at this ⊢
  nlinarith [sq_nonneg x, sq_nonneg y]

theorem covOK_kfCorrect (R : K) (hR : 0 < R) (m : K × K) (P : M2 K) (la lb : K)
    (h : covOK P) : covOK ((kfCorrect R m P la lb).2) :=
  ⟨kfCorrect_cov_symm R m P la lb h.1, kfCorrect_cov_psd R hR m P la lb h.1 h.2⟩

theorem covOK_getLastD (l : List (M2 K)) (d : M2 K) (hd : covOK d)
    (h : ∀ P ∈ l, covOK P) : covOK (l.getLastD d) := by
  induction l generalizing d with
  | nil => exact hd
  | cons a t ih =>
      rw [List.getLastD_cons]
      exact ih a (h a (by simp)) (fun P hP => h P (by simp [hP]))

theorem kfFilterAux_covOK (R q : K) (hR : 0 < R) (hq : 0 ≤ q)
    (st : (K × K) × M2 K) (hst : covOK st.2) (os : List (K × K)) :
    ∀ p ∈ kfFilterAux R q st os, covOK p.2 := by
  induction os generalizing st with
  | nil => simp [kfFilterAux]
  | cons o os ih =>
      intro p hp
      simp only [kfFilterAux, List.mem_cons] at hp
      have hstep : covOK (kfCorrect R st.1 (M2.addScaledId st.2 q) o.1 o.2).2 :=
        covOK_kfCorrect R hR _ _ o.1 o.2 (covOK_addScaledId st.2 q hst hq)
      rcases hp with rfl | hp
      · exact hstep
      · exact ih _ hstep p hp

theorem kfFilter_covOK (R q c : K) (hR : 0 < R) (hq : 0 ≤ q) (hc : 0 ≤ c)
    (os : List (K × K)) : ∀ p ∈ kfFilter R q c os, covOK p.2 := by
  cases os with
  | nil => simp [kfFilter]
  | cons o os =>
      intro p hp
      simp only [kfFilter, List.mem_cons] at hp
      have hstep : covOK (kfCorrect R (0, 0) ⟨c, 0, 0, c⟩ o.1 o.2).2 :=
        covOK_kfCorrect R hR _ _ o.1 o.2 (covOK_scaledId c hc)
      rcases hp with rfl | hp
      · exact hstep
      · exact kfFilterAux_covOK R q hR hq _ hstep os p hp

/-- C5: with positive observation noise, 0 < delta < 1 and nonnegative
    initial state covariance, every covariance matrix in the trajectory of a
    valid (or failed) initialization is symmetric positive semidefinite, and
    an online update on a state whose covariances are all symmetric PSD,
    with positive observation noise and nonnegative process noise, leaves
    every stored covariance - in particular the current one - symmetric
    positive semidefinite. -/
theorem c5_covariance_psd :
    (∀ (R dlt c : ℝ) (pa pb : List ℝ), 0 < R → 0 < dlt → dlt < 1 → 0 ≤ c →
        ∀ P ∈ (kfInitialize Real.log Real.sqrt (mkPairsKalmanFilter R dlt c)
            pa pb).1.state_covariances, P.symmP ∧ P.posSemidef) ∧
    (∀ (kf : KFState ℝ) (pa pb : ℝ), 0 < kf.observation_covariance →
        0 ≤ kf.transition_covariance →
        (∀ P ∈ kf.state_covariances, P.symmP ∧ P.posSemidef) →
        ∀ P ∈ (applyUpdate Real.log Real.sqrt kf pa pb).state_covariances,
          P.symmP ∧ P.posSemidef) := by
  constructor
  · intro R dlt c pa pb hR hd0 hd1 hc P hP
    have hq : 0 ≤ dlt / (1 - dlt) := div_nonneg hd0.le (by linarith)
    by_cases hne : pa.length ≠ pb.length
    · rw [kfInitialize, if_pos hne] at hP
      simp [mkPairsKalmanFilter] at hP
    · rw [kfInitialize, if_neg hne] at hP
      by_cases hlt : pa.length < 50
      · rw [if_pos hlt] at hP
        simp [mkPairsKalmanFilter] at hP
      · rw [if_neg hlt] at hP
        simp only [mkPairsKalmanFilter, List.mem_map] at hP
        obtain ⟨p, hp, rfl⟩ := hP
        exact kfFilter_covOK R (dlt / (1 - dlt)) c hR hq hc _ p hp
  · intro kf pa pb hR hq hall P hP
    rw [applyUpdate_eq_self] at hP
    exact hall P hP

/-- Witness for C5: the default parameters on the empty input for the
    initialization half, and the concrete state kfW for the update half. -/
theorem c5_covariance_psd_witness :
    (∀ P ∈ (kfInitialize Real.log Real.sqrt (mkPairsKalmanFilter 1 (1 / 2) 1)
        ([] : List ℝ) []).1.state_covariances, P.symmP ∧ P.posSemidef) ∧
    (∀ P ∈ (applyUpdate Real.log Real.sqrt kfW 1 1).state_covariances,
        P.symmP ∧ P.posSemidef) := by
  constructor
  · exact c5_covariance_psd.1 1 (1 / 2) 1 [] [] (by norm_num) (by norm_num)
      (by norm_num) (by norm_num)
  · refine c5_covariance_psd.2 kfW 1 1 (by norm_num [kfW]) (by norm_num [kfW]) ?_
    intro P hP
    simp only [kfW, List.mem_singleton] at hP
    subst hP
    constructor
    · rfl
    · intro x y
      simp only [M2.quadF]
      nlinarith [sq_nonneg x, sq_nonneg y]
